import Mathlib

/-!
Verification of the Axon/CKB chain-adapter core of the forcerelay repository.

The definitions below are a shallow embedding of
`crates/relayer/src/chain/axon.rs` and
`crates/relayer/src/chain/ckb4ibc/message.rs`.  External collaborators
(the Axon JSON-RPC client, the deployed IBC handler contract, the
`axon_tools` finality verifier, log decoding, RLP encoding) are modelled
as explicit environment records of pure functions; the adapter code under
verification is translated statement by statement.  Rust panics
(`expect`, `assert!`, `unwrap` on fetch results, `todo!`) are modelled as
a distinct `panic` outcome, separate from returned `Err` values; the
unbounded polling loop for a finality proof is run on explicit fuel, with
a distinct `diverge` outcome when the fuel is exhausted.
-/

namespace Forcerelay

/-- Raw byte strings (`Vec<u8>` in the source) are lists of naturals. -/
abbrev Bytes := List Nat

/-- Error values produced by the adapter.  Constructors mirror the
`Error::...` constructors actually used by the embedded code. -/
inductive Error where
  | rpcResponse (msg : String)
  | otherError (msg : String)
  | sendTx (msg : String)
  | protobufDecode (url : String)
  | convertErr (code : Nat)
  deriving DecidableEq, Repr

/-- Outcome of running a fallible, possibly panicking, possibly looping
piece of adapter code.  `panic` models Rust `expect` / `assert!` /
`unwrap` / `todo!` aborts; `diverge` models exhausting the fuel of the
one unbounded retry loop. -/
inductive Outcome (α : Type) where
  | okv (a : α)
  | err (e : Error)
  | panic
  | diverge
  deriving DecidableEq, Repr

/-- Height is a (revision number, revision height) pair, as in
`ibc_relayer_types::Height`. -/
structure Height where
  revisionNumber : Nat
  revisionHeight : Nat
  deriving DecidableEq, Repr

/-- Modelled from the spec: `Height::default()` is a sentinel
"unknown/zero" value, never a real chain height. -/
def Height.default : Height := ⟨0, 0⟩

/-- Modelled from the spec: `Height::from_noncosmos_height` tags a plain
ledger block number as a revision-0 protocol height (the Height data
model is a (revision number, revision height) pair). -/
def Height.fromNoncosmos (n : Nat) : Height := ⟨0, n⟩

/-- Height qualifier of a query (`QueryHeight` in the source). -/
inductive QueryHeight where
  | latest
  | specific (h : Height)
  deriving DecidableEq, Repr

/-- Whether the caller asked for a membership proof
(`IncludeProof` in the source). -/
inductive IncludeProof where
  | yes
  | no
  deriving DecidableEq, Repr

/-- Merkle proofs are never produced by the embedded queries; their
structure is irrelevant, an opaque token suffices. -/
abbrev MerkleProof := Nat

end Forcerelay

namespace Forcerelay

/-! ### `send_messages_and_wait_commit` (axon.rs lines 279-288)

`send_message` takes `&mut self`; its effect is modelled as a
state-passing step function `σ → Msg → Except Error (Event × σ)`.
`send_messages_and_wait_commit` is
`tracked_msgs.msgs.into_iter().map(|msg| self.send_message(msg))
 .collect::<Result<Vec<_>, _>>()`: Rust's `collect` on `Result` runs the
(lazy) iterator in order and stops at the first `Err`, so later messages
are never sent. -/

/-- One batch run of `send_messages_and_wait_commit`, parametric in the
per-message `send_message` step and the mutable adapter state. -/
def sendMessagesAndWaitCommit {σ Msg Event : Type}
    (step : σ → Msg → Except Error (Event × σ)) :
    σ → List Msg → Except Error (List Event × σ)
  | s, [] => .ok ([], s)
  | s, m :: ms =>
    match step s m with
    | .error e => .error e
    | .ok (ev, s') =>
      match sendMessagesAndWaitCommit step s' ms with
      | .error e => .error e
      | .ok (evs, s'') => .ok (ev :: evs, s'')

/-- A sequential run: the batch is processed strictly in input order,
threading the adapter state, producing one event per message. -/
inductive SeqRun {σ Msg Event : Type}
    (step : σ → Msg → Except Error (Event × σ)) :
    σ → List Msg → List Event → σ → Prop where
  | nil (s : σ) : SeqRun step s [] [] s
  | cons {s s' s'' : σ} {m : Msg} {ms : List Msg} {ev : Event}
      {evs : List Event} :
      step s m = .ok (ev, s') →
      SeqRun step s' ms evs s'' →
      SeqRun step s (m :: ms) (ev :: evs) s''

theorem sendMessagesAndWaitCommit_ok_iff {σ Msg Event : Type}
    (step : σ → Msg → Except Error (Event × σ)) (s : σ) (msgs : List Msg)
    (evs : List Event) (s' : σ) :
    sendMessagesAndWaitCommit step s msgs = .ok (evs, s') ↔
      SeqRun step s msgs evs s' := by
  induction msgs generalizing s evs with
  | nil =>
    constructor
    · intro h
      simp only [sendMessagesAndWaitCommit] at h
      obtain ⟨h1, h2⟩ := Prod.mk.injEq .. ▸ Except.ok.injEq .. ▸ h
      exact h1 ▸ h2 ▸ SeqRun.nil s
    · intro h
      cases h
      rfl
  | cons m ms ih =>
    constructor
    · intro h
      cases hstep : step s m with
      | error e =>
        simp only [sendMessagesAndWaitCommit, hstep] at h
        exact Except.noConfusion h
      | ok p =>
        obtain ⟨ev, s₁⟩ := p
        cases hrest : sendMessagesAndWaitCommit step s₁ ms with
        | error e =>
          simp only [sendMessagesAndWaitCommit, hstep, hrest] at h
          exact Except.noConfusion h
        | ok q =>
          obtain ⟨evs₁, s₂⟩ := q
          simp only [sendMessagesAndWaitCommit, hstep, hrest,
            Except.ok.injEq, Prod.mk.injEq] at h
          obtain ⟨h1, h2⟩ := h
          subst h1
          subst h2
          exact SeqRun.cons hstep ((ih s₁ evs₁).mp hrest)
    · intro h
      cases h with
      | cons hstep hrun =>
        simp only [sendMessagesAndWaitCommit, hstep, (ih _ _).mpr hrun]

theorem sendMessagesAndWaitCommit_error_of_prefix {σ Msg Event : Type}
    (step : σ → Msg → Except Error (Event × σ)) (s sMid : σ)
    (done : List Msg) (evs : List Event) (m : Msg) (rest : List Msg)
    (e : Error) :
    SeqRun step s done evs sMid →
    step sMid m = .error e →
    sendMessagesAndWaitCommit step s (done ++ m :: rest) = .error e := by
  intro hrun hfail
  induction done generalizing s evs with
  | nil =>
    cases hrun
    simp only [List.nil_append, sendMessagesAndWaitCommit, hfail]
  | cons d ds ih =>
    cases hrun with
    | cons hstep hrun' =>
      have := ih _ _ hrun'
      simp only [List.cons_append, sendMessagesAndWaitCommit, hstep,
        List.append_eq, this]

/-- C2.  `send_messages_and_wait_commit` processes the batch strictly
sequentially in input order, returns one event per input message in
input order on success, and on the first failing message returns that
error with no partial event list. -/
theorem send_messages_and_wait_commit_sequential {σ Msg Event : Type}
    (step : σ → Msg → Except Error (Event × σ)) (s : σ)
    (msgs : List Msg) :
    (∀ evs s', sendMessagesAndWaitCommit step s msgs = .ok (evs, s') →
       evs.length = msgs.length ∧ SeqRun step s msgs evs s') ∧
    (∀ sMid done evs m rest e, msgs = done ++ m :: rest →
       SeqRun step s done evs sMid → step sMid m = .error e →
       sendMessagesAndWaitCommit step s msgs = .error e) := by
  constructor
  · intro evs s' h
    have hrun := (sendMessagesAndWaitCommit_ok_iff step s msgs evs s').mp h
    refine ⟨?_, hrun⟩
    clear h
    induction hrun with
    | nil => rfl
    | cons _ _ ih => simpa using ih
  · intro sMid done evs m rest e hsplit hrun hfail
    subst hsplit
    exact sendMessagesAndWaitCommit_error_of_prefix step s sMid done evs
      m rest e hrun hfail

/-- Witness for C2 at a concrete batch: a two-message batch where the
step succeeds on both, and a batch whose second message fails. -/
theorem send_messages_and_wait_commit_sequential_witness :
    ([10, 21].length = [1, 2].length ∧
      SeqRun (fun (s : Nat) (m : Nat) => .ok (10 * m + s, s + 1))
        0 [1, 2] [10, 21] 2) ∧
    sendMessagesAndWaitCommit
      (fun (s : Nat) (m : Nat) =>
        if m = 2 then .error (.sendTx "boom")
        else .ok (10 * m + s, s + 1))
      0 [1, 2, 3] = .error (.sendTx "boom") := by
  constructor
  · exact (send_messages_and_wait_commit_sequential
      (fun (s : Nat) (m : Nat) => .ok (10 * m + s, s + 1)) 0 [1, 2]).1
      [10, 21] 2 rfl
  · exact (send_messages_and_wait_commit_sequential
      (fun (s : Nat) (m : Nat) =>
        if m = 2 then .error (.sendTx "boom")
        else .ok (10 * m + s, s + 1)) 0 [1, 2, 3]).2
      1 [1] [10] 2 [3] (.sendTx "boom") rfl
      (.cons rfl (.nil 1)) rfl

/-! ### Proof pipeline: `get_proofs` / `get_proofs_ingredients`
(axon.rs lines 1244-1366)

The Axon JSON-RPC client, the `axon_tools::verify_proof` finality
verifier, the `ckb_ics_axon` commitment-slot encoder and the RLP encoder
are external collaborators, modelled as an environment of pure
functions.  The polling of `get_proof_by_id` is time dependent, so its
model takes an attempt counter, and the `loop` runs on explicit fuel. -/

/-- An Axon block as fetched over RPC; only its previous-state-root field
is inspected by the embedded code, the rest is an opaque payload. -/
structure AxonBlock where
  stateRoot : Nat
  payload : Nat
  deriving DecidableEq, Repr

/-- Opaque Axon finality proof (`axon_tools::types::Proof`). -/
structure AxonProof where
  payload : Nat
  deriving DecidableEq, Repr

/-- One verifier entry of the chain metadata (`verifier_list` element). -/
structure VerifierMeta where
  blsPubKey : Nat
  pubKey : Nat
  address : Nat
  proposeWeight : Nat
  voteWeight : Nat
  deriving DecidableEq, Repr

/-- Chain metadata, as returned by `get_current_metadata`. -/
structure Metadata where
  verifierList : List VerifierMeta
  deriving DecidableEq, Repr

/-- A validator, as handed to the finality verifier
(`axon_tools::types::ValidatorExtend`). -/
structure ValidatorExtend where
  blsPubKey : Nat
  pubKey : Nat
  address : Nat
  proposeWeight : Nat
  voteWeight : Nat
  deriving DecidableEq, Repr

/-- The field-by-field copy of a metadata verifier entry into a
`ValidatorExtend` (axon.rs lines 1356-1362). -/
def VerifierMeta.toValidatorExtend (v : VerifierMeta) : ValidatorExtend :=
  { blsPubKey := v.blsPubKey
    pubKey := v.pubKey
    address := v.address
    proposeWeight := v.proposeWeight
    voteWeight := v.voteWeight }

/-- One element of an `eth_getProof` storage proof. -/
structure StorageProofEntry where
  proof : List Bytes
  deriving DecidableEq, Repr

/-- Response of the `eth_getProof` state-proof endpoint. -/
structure EthProofResponse where
  accountProof : List Bytes
  storageProof : List StorageProofEntry
  deriving DecidableEq, Repr

/-- The RLP-encoded object proof payload
(`ckb_ics_axon::axon_client::AxonCommitmentProof`). -/
structure AxonCommitmentProof where
  block : AxonBlock
  blockProof : AxonProof
  previousStateRoot : Nat
  accountProof : List Bytes
  storageProof : List Bytes
  deriving DecidableEq, Repr

/-- A consensus sub-proof (`ibc_relayer_types::proofs::ConsensusProof`). -/
structure ConsensusProof where
  proof : Bytes
  height : Height
  deriving DecidableEq, Repr

/-- The assembled proof bundle (`ibc_relayer_types::proofs::Proofs`).
The `Proofs::new` / `ConsensusProof::new` validations live in the
external `ibc_relayer_types` crate; construction over nonempty byte
strings is modelled as the plain record it produces. -/
structure Proofs where
  objectProof : Bytes
  clientProof : Option Bytes
  consensusProof : Option ConsensusProof
  hostConsensusProof : Option Bytes
  height : Height
  deriving DecidableEq, Repr

/-- External collaborators of the proof pipeline: the Axon RPC client
(block, finality-proof, metadata, and state-proof endpoints), the
`axon_tools` finality verifier, the commitment-slot encoder, and the RLP
encoder.  `getProofById` takes the polled block number and an attempt
counter: successive poll attempts of the same block may start returning
the finality proof once it exists. -/
structure AxonRpcEnv where
  getBlockById : Nat → Except Error (Option AxonBlock)
  getProofById : Nat → Nat → Except Error (Option AxonProof)
  getCurrentMetadata : Except Error Metadata
  verifyProof : AxonBlock → Nat → List ValidatorExtend → AxonProof →
    Except Nat Unit
  commitmentSlot : String → Nat
  ethGetProof : Nat → Nat → Except Error EthProofResponse
  rlpEncodeCommitmentProof : AxonCommitmentProof → Bytes

/-- The `loop` of `get_proofs_ingredients` (axon.rs lines 1342-1349):
poll `get_proof_by_id(next_number)` until it returns a proof, sleeping
between attempts; an RPC error propagates out of the loop.  The loop is
unbounded in the source; it runs here on explicit fuel and reports
`diverge` when the fuel is exhausted. -/
def pollFinalityProof (env : AxonRpcEnv) (nextNumber : Nat) :
    Nat → Nat → Outcome AxonProof
  | _, 0 => .diverge
  | attempt, fuel + 1 =>
    match env.getProofById nextNumber attempt with
    | .error e => .err e
    | .ok (some p) => .okv p
    | .ok none => pollFinalityProof env nextNumber (attempt + 1) fuel

/-- The four mutually consistent proof ingredients fetched by
`get_proofs_ingredients`. -/
structure ProofIngredients where
  block : AxonBlock
  previousStateRoot : Nat
  blockProof : AxonProof
  validators : List ValidatorExtend
  deriving DecidableEq, Repr

/-- Embedding of `AxonChain::get_proofs_ingredients` (axon.rs lines
1319-1366).  `checked_sub(1).expect("bad block_number")` panics when the
block number is 0 and `checked_add(1).expect("bad block_number")` panics
at the u64 maximum, both before any RPC interaction. -/
def getProofsIngredients (env : AxonRpcEnv) (blockNumber : Nat)
    (fuel : Nat) : Outcome ProofIngredients :=
  if blockNumber = 0 then .panic
  else if blockNumber = 2 ^ 64 - 1 then .panic
  else
    match env.getBlockById blockNumber with
    | .error e => .err e
    | .ok none =>
      .err (.otherError ("failed to get block " ++ toString blockNumber))
    | .ok (some block) =>
      match env.getBlockById (blockNumber - 1) with
      | .error e => .err e
      | .ok none =>
        .err (.otherError
          ("failed to get block " ++ toString (blockNumber - 1)))
      | .ok (some previousBlock) =>
        match pollFinalityProof env (blockNumber + 1) 0 fuel with
        | .err e => .err e
        | .panic => .panic
        | .diverge => .diverge
        | .okv blockProof =>
          match env.getCurrentMetadata with
          | .error e => .err e
          | .ok md =>
            .okv
              { block := block
                previousStateRoot := previousBlock.stateRoot
                blockProof := blockProof
                validators :=
                  md.verifierList.map VerifierMeta.toValidatorExtend }

/-- Embedding of `AxonChain::get_proofs` (axon.rs lines 1244-1317).
Finality-verification failure writes a debug dump (a side effect outside
this model) and fails the call; the `eth_get_proof` result is
`.unwrap()`ed (transport error panics) and its storage proof list is
`assert!`ed nonempty (empty list panics). -/
def getProofs (env : AxonRpcEnv) (height : Height)
    (commitmentPath : String) (fuel : Nat) : Outcome Proofs :=
  let blockNumber := height.revisionHeight
  match getProofsIngredients env blockNumber fuel with
  | .err e => .err e
  | .panic => .panic
  | .diverge => .diverge
  | .okv ing =>
    match env.verifyProof ing.block ing.previousStateRoot ing.validators
        ing.blockProof with
    | .error errCode =>
      .err (.rpcResponse ("unverified axon block #" ++
        toString blockNumber ++ ", err code " ++ toString errCode))
    | .ok _ =>
      match env.ethGetProof (env.commitmentSlot commitmentPath)
          blockNumber with
      | .error _ => .panic
      | .ok res =>
        match res.storageProof with
        | [] => .panic
        | entry :: _ =>
          let objectProof := env.rlpEncodeCommitmentProof
            { block := ing.block
              blockProof := ing.blockProof
              previousStateRoot := ing.previousStateRoot
              accountProof := res.accountProof
              storageProof := entry.proof }
          if objectProof = [] then .panic
          else
            .okv
              { objectProof := objectProof
                clientProof := some [0]
                consensusProof := some ⟨[0], Height.default⟩
                hostConsensusProof := none
                height := height }

/-- C1.  `get_proofs` returns a proof bundle only when the fetched
ingredients exist and the finality verification of the fetched block
against the fetched validator set succeeded; it never returns a bundle
whose finality verification did not succeed. -/
theorem get_proofs_only_after_verification (env : AxonRpcEnv)
    (height : Height) (commitmentPath : String) (fuel : Nat) (p : Proofs) :
    getProofs env height commitmentPath fuel = .okv p →
    ∃ ing, getProofsIngredients env height.revisionHeight fuel = .okv ing ∧
      env.verifyProof ing.block ing.previousStateRoot ing.validators
        ing.blockProof = .ok () := by
  intro h
  rw [getProofs] at h
  cases hIng : getProofsIngredients env height.revisionHeight fuel with
  | err e => simp [hIng] at h
  | panic => simp [hIng] at h
  | diverge => simp [hIng] at h
  | okv ing =>
    simp only [hIng] at h
    cases hVerify : env.verifyProof ing.block ing.previousStateRoot
        ing.validators ing.blockProof with
    | error errCode =>
      simp [hVerify] at h
    | ok u =>
      cases u
      exact ⟨ing, rfl, hVerify⟩

/-- A happy-path environment for the proof pipeline: every fetch
succeeds and verification accepts. -/
def envProofsOk : AxonRpcEnv where
  getBlockById := fun n => .ok (some ⟨100 + n, n⟩)
  getProofById := fun _ _ => .ok (some ⟨3⟩)
  getCurrentMetadata := .ok ⟨[⟨1, 2, 3, 4, 5⟩]⟩
  verifyProof := fun _ _ _ _ => .ok ()
  commitmentSlot := fun _ => 42
  ethGetProof := fun _ _ => .ok ⟨[[1]], [⟨[[2]]⟩]⟩
  rlpEncodeCommitmentProof := fun _ => [9]

/-- Witness for C1: in the happy-path environment, `get_proofs` at
height 5 returns a bundle, and the theorem yields the verified
ingredients. -/
theorem get_proofs_only_after_verification_witness :
    ∃ ing, getProofsIngredients envProofsOk 5 1 = .okv ing ∧
      envProofsOk.verifyProof ing.block ing.previousStateRoot
        ing.validators ing.blockProof = .ok () :=
  get_proofs_only_after_verification envProofsOk ⟨0, 5⟩
    "commitments/ports/transfer" 1
    { objectProof := [9]
      clientProof := some [0]
      consensusProof := some ⟨[0], Height.default⟩
      hostConsensusProof := none
      height := ⟨0, 5⟩ }
    rfl

/-- An environment recording that it is never consulted at height 0 is
unnecessary: the height-0 outcome below holds for every environment, so
no RPC call can have influenced it.  This particular environment is the
one used for the concrete height-0 run. -/
def envHeightZero : AxonRpcEnv where
  getBlockById := fun n => .ok (some ⟨100 + n, n⟩)
  getProofById := fun _ _ => .ok (some ⟨3⟩)
  getCurrentMetadata := .ok ⟨[⟨1, 2, 3, 4, 5⟩]⟩
  verifyProof := fun _ _ _ _ => .ok ()
  commitmentSlot := fun _ => 42
  ethGetProof := fun _ _ => .ok ⟨[[1]], [⟨[[2]]⟩]⟩
  rlpEncodeCommitmentProof := fun _ => [9]

/-- Counterexample to C3 as stated: at height 0 `get_proofs` panics
(`checked_sub(1u64).expect("bad block_number")`), it does not return an
`InvalidHeight` — or any — error value. -/
theorem get_proofs_height_zero_counterexample :
    getProofs envHeightZero ⟨0, 0⟩ "commitments/ports/transfer" 1 = .panic ∧
    ∀ e, getProofs envHeightZero ⟨0, 0⟩ "commitments/ports/transfer" 1 ≠
      .err e :=
  ⟨rfl, fun _ h => Outcome.noConfusion h⟩

/-- C3 amended.  Calling `get_proofs` at any height with revision height
0 panics before attempting any network call: the outcome is `panic`
uniformly in the environment, so no RPC endpoint is consulted. -/
theorem get_proofs_height_zero_panics (env : AxonRpcEnv)
    (revisionNumber : Nat) (commitmentPath : String) (fuel : Nat) :
    getProofs env ⟨revisionNumber, 0⟩ commitmentPath fuel = .panic := by
  rw [getProofs, getProofsIngredients]
  rfl

/-- An environment whose state-proof endpoint answers with an empty
storage-proof list for the derived commitment slot. -/
def envEmptyStorageProof : AxonRpcEnv where
  getBlockById := fun n => .ok (some ⟨100 + n, n⟩)
  getProofById := fun _ _ => .ok (some ⟨3⟩)
  getCurrentMetadata := .ok ⟨[⟨1, 2, 3, 4, 5⟩]⟩
  verifyProof := fun _ _ _ _ => .ok ()
  commitmentSlot := fun _ => 42
  ethGetProof := fun _ _ => .ok ⟨[[1]], []⟩
  rlpEncodeCommitmentProof := fun _ => [9]

/-- Counterexample to C4 as stated: with an empty storage-proof list the
call panics (`assert!(!commitment_proof.storage_proof.is_empty())`); it
does not return a `MalformedProof` — or any — error value. -/
theorem get_proofs_empty_storage_proof_counterexample :
    getProofs envEmptyStorageProof ⟨0, 5⟩ "commitments/ports/transfer" 1 =
      .panic ∧
    ∀ e, getProofs envEmptyStorageProof ⟨0, 5⟩ "commitments/ports/transfer"
      1 ≠ .err e :=
  ⟨rfl, fun _ h => Outcome.noConfusion h⟩

/-- C4 amended.  When the pipeline reaches the state-proof fetch (the
ingredients were obtained and finality verification succeeded) and the
endpoint returns an empty storage-proof list, `get_proofs` panics via the
nonemptiness assertion: it neither succeeds nor treats the empty result
as the path being absent. -/
theorem get_proofs_empty_storage_proof_panics (env : AxonRpcEnv)
    (height : Height) (commitmentPath : String) (fuel : Nat)
    (ing : ProofIngredients) (res : EthProofResponse) :
    getProofsIngredients env height.revisionHeight fuel = .okv ing →
    env.verifyProof ing.block ing.previousStateRoot ing.validators
      ing.blockProof = .ok () →
    env.ethGetProof (env.commitmentSlot commitmentPath)
      height.revisionHeight = .ok res →
    res.storageProof = [] →
    getProofs env height commitmentPath fuel = .panic := by
  intro hIng hVerify hEth hEmpty
  rw [getProofs]
  simp only [hIng, hVerify, hEth, hEmpty]

/-- Witness for C4's amended theorem at the concrete empty-storage-proof
environment. -/
theorem get_proofs_empty_storage_proof_panics_witness :
    getProofs envEmptyStorageProof ⟨0, 7⟩ "commitments/ports/transfer" 1 =
      .panic :=
  get_proofs_empty_storage_proof_panics envEmptyStorageProof ⟨0, 7⟩
    "commitments/ports/transfer" 1
    { block := ⟨107, 7⟩
      previousStateRoot := 106
      blockProof := ⟨3⟩
      validators := [⟨1, 2, 3, 4, 5⟩] }
    ⟨[[1]], []⟩ rfl rfl rfl rfl

/-! ### Packet state queries (axon.rs lines 623-638 and 663-683)

The deployed IBC handler contract is the external collaborator; its two
read calls used here return `(bytes32, bool)` for
`get_hashed_packet_commitment` and `bool` for `has_packet_receipt`.
Contract call errors are converted by `convert_err`. -/

/-- The contract read calls used by the packet queries.  Each takes the
port, channel, sequence, and the height qualifier that scopes the call. -/
structure ContractEnv where
  getHashedPacketCommitment :
    String → String → Nat → QueryHeight → Except Nat (Bytes × Bool)
  hasPacketReceipt :
    String → String → Nat → QueryHeight → Except Nat Bool

/-- A packet-commitment query request. -/
structure QueryPacketCommitmentRequest where
  portId : String
  channelId : String
  sequence : Nat
  height : QueryHeight
  deriving DecidableEq, Repr

/-- A packet-receipt query request. -/
structure QueryPacketReceiptRequest where
  portId : String
  channelId : String
  sequence : Nat
  height : QueryHeight
  deriving DecidableEq, Repr

/-- Embedding of `AxonChain::query_packet_commitment` (axon.rs lines
623-638).  The contract's `(commitment, found)` pair is destructured as
`(commitment, _)`: the found flag is discarded and the commitment bytes
are returned as a success with no proof, with the `IncludeProof`
argument ignored. -/
def queryPacketCommitment (env : ContractEnv)
    (request : QueryPacketCommitmentRequest) (_ : IncludeProof) :
    Except Error (Bytes × Option MerkleProof) :=
  match env.getHashedPacketCommitment request.portId request.channelId
      request.sequence request.height with
  | .error code => .error (.convertErr code)
  | .ok (commitment, _) => .ok (commitment, none)

/-- A contract in which no packet commitment exists for any key: the
call reports the all-zero commitment with `found = false`. -/
def envNoCommitment : ContractEnv where
  getHashedPacketCommitment := fun _ _ _ _ =>
    .ok (List.replicate 32 0, false)
  hasPacketReceipt := fun _ _ _ _ => .ok false

/-- Counterexample to C5 as stated: for (port "transfer", channel
"channel-0", sequence 5) with no existing commitment, the query does not
report absence at all — it succeeds with the contract's all-zero
commitment bytes, indistinguishable in shape from a present
commitment. -/
theorem query_packet_commitment_counterexample :
    queryPacketCommitment envNoCommitment
      ⟨"transfer", "channel-0", 5, .latest⟩ .no =
      .ok (List.replicate 32 0, none) := rfl

/-- C5 amended.  `query_packet_commitment` ignores the contract's found
flag and the `IncludeProof` argument: whenever the contract call
succeeds it returns exactly the reported commitment bytes (all-zero when
no commitment exists) with no proof. -/
theorem query_packet_commitment_raw_bytes (env : ContractEnv)
    (request : QueryPacketCommitmentRequest) (includeProof : IncludeProof)
    (bytes : Bytes) (found : Bool) :
    env.getHashedPacketCommitment request.portId request.channelId
      request.sequence request.height = .ok (bytes, found) →
    queryPacketCommitment env request includeProof = .ok (bytes, none) := by
  intro h
  rw [queryPacketCommitment, h]

/-- A contract holding a commitment for every key. -/
def envWithCommitment : ContractEnv where
  getHashedPacketCommitment := fun _ _ _ _ => .ok ([7, 7, 7], true)
  hasPacketReceipt := fun _ _ _ _ => .ok false

/-- Witness for C5's amended theorem: an existing commitment queried
with `IncludeProof::No` yields the raw commitment bytes and no proof. -/
theorem query_packet_commitment_raw_bytes_witness :
    queryPacketCommitment envWithCommitment
      ⟨"transfer", "channel-0", 5, .latest⟩ .no = .ok ([7, 7, 7], none) :=
  query_packet_commitment_raw_bytes envWithCommitment
    ⟨"transfer", "channel-0", 5, .latest⟩ .no [7, 7, 7] true rfl

/-- Embedding of `AxonChain::query_packet_receipt` (axon.rs lines
663-683): the ledger's boolean receipt flag is encoded as the returned
byte vector — `[1]` when present, `[]` when absent — and no proof is
ever produced. -/
def queryPacketReceipt (env : ContractEnv)
    (request : QueryPacketReceiptRequest) (_ : IncludeProof) :
    Except Error (Bytes × Option MerkleProof) :=
  match env.hasPacketReceipt request.portId request.channelId
      request.sequence request.height with
  | .error code => .error (.convertErr code)
  | .ok true => .ok ([1], none)
  | .ok false => .ok ([], none)

/-- C10.  `query_packet_receipt` returns the single byte `[1]` when the
ledger reports a receipt present and the empty byte vector when absent,
and in both cases returns no merkle proof, regardless of the
`IncludeProof` argument. -/
theorem query_packet_receipt_presence_encoding (env : ContractEnv)
    (request : QueryPacketReceiptRequest) (includeProof : IncludeProof)
    (hasReceipt : Bool) :
    env.hasPacketReceipt request.portId request.channelId request.sequence
      request.height = .ok hasReceipt →
    queryPacketReceipt env request includeProof =
      .ok ((if hasReceipt then [1] else []), none) := by
  intro h
  rw [queryPacketReceipt, h]
  cases hasReceipt <;> rfl

/-- A contract that reports a receipt present for every key. -/
def envWithReceipt : ContractEnv where
  getHashedPacketCommitment := fun _ _ _ _ =>
    .ok (List.replicate 32 0, false)
  hasPacketReceipt := fun _ _ _ _ => .ok true

/-- Witness for C10 at a present receipt queried with
`IncludeProof::Yes`: still byte `[1]` and no proof. -/
theorem query_packet_receipt_presence_encoding_witness :
    queryPacketReceipt envWithReceipt
      ⟨"transfer", "channel-0", 5, .latest⟩ .yes = .ok ([1], none) :=
  query_packet_receipt_presence_encoding envWithReceipt
    ⟨"transfer", "channel-0", 5, .latest⟩ .yes true rfl

/-! ### `subscribe` (axon.rs lines 240-252)

`subscribe` lazily starts the background event monitor: when
`self.tx_monitor_cmd` is `None` it calls `init_event_monitor` (which
creates the monitor and spawns its thread) and stores the returned
command handle; otherwise it reuses the stored handle.  Either way it
then asks that handle for a `Subscription`.  The mutable adapter state
is the stored handle plus, for the model, a count of monitor tasks
spawned so far; a freshly spawned monitor's handle is its index. -/

/-- The monitor-related mutable state of an `AxonChain` instance. -/
structure MonitorState where
  txMonitorCmd : Option Nat
  monitorsStarted : Nat
  deriving DecidableEq, Repr

/-- External behavior of monitor creation and of the
`TxMonitorCmd::subscribe` channel call. -/
structure SubscribeEnv where
  initEventMonitor : Nat → Except Error Nat
  subscribeCmd : Nat → Except Error Nat

/-- Embedding of `AxonChain::subscribe` (axon.rs lines 240-252).  The
pair of result components is the reused-or-created monitor handle and
the `Subscription` obtained from it; the state is returned alongside
because `&mut self` keeps its mutation even when the final
`subscribe()` channel call fails. -/
def subscribe (env : SubscribeEnv) (s : MonitorState) :
    MonitorState × Except Error (Nat × Nat) :=
  match s.txMonitorCmd with
  | some cmd =>
    (s, (env.subscribeCmd cmd).map (fun sub => (cmd, sub)))
  | none =>
    match env.initEventMonitor s.monitorsStarted with
    | .error e => (s, .error e)
    | .ok handle =>
      let s' : MonitorState :=
        { txMonitorCmd := some handle
          monitorsStarted := s.monitorsStarted + 1 }
      (s', (env.subscribeCmd handle).map (fun sub => (handle, sub)))

/-- C9.  `subscribe` is idempotent with respect to monitor creation: if a
call succeeded, returning monitor handle `h`, then a second call on the
resulting state — under any environment behavior — leaves the state
unchanged (in particular it spawns no second background task: the
started-monitor count is unchanged) and uses the same stored handle
`h`. -/
theorem subscribe_idempotent (env env' : SubscribeEnv) (s s₁ : MonitorState)
    (handle sub : Nat) :
    subscribe env s = (s₁, .ok (handle, sub)) →
    s₁.txMonitorCmd = some handle ∧
    (subscribe env' s₁).1 = s₁ ∧
    (subscribe env' s₁).1.monitorsStarted = s₁.monitorsStarted ∧
    ∀ handle' sub', (subscribe env' s₁).2 = .ok (handle', sub') →
      handle' = handle := by
  intro h
  have hCmd : s₁.txMonitorCmd = some handle := by
    rw [subscribe] at h
    cases hs : s.txMonitorCmd with
    | some cmd =>
      simp only [hs] at h
      cases hsub : env.subscribeCmd cmd with
      | error e => simp [hsub, Except.map] at h
      | ok v =>
        simp only [hsub, Except.map, Prod.mk.injEq, Except.ok.injEq] at h
        obtain ⟨h1, h2, h3⟩ := h
        rw [← h1, hs, h2]
    | none =>
      simp only [hs] at h
      cases hinit : env.initEventMonitor s.monitorsStarted with
      | error e => simp [hinit] at h
      | ok handle₀ =>
        simp only [hinit] at h
        cases hsub : env.subscribeCmd handle₀ with
        | error e => simp [hsub, Except.map] at h
        | ok v =>
          simp only [hsub, Except.map, Prod.mk.injEq,
            Except.ok.injEq] at h
          obtain ⟨h1, h2, h3⟩ := h
          rw [← h1, h2]
  refine ⟨hCmd, ?_, ?_, ?_⟩
  · simp only [subscribe, hCmd]
  · simp only [subscribe, hCmd]
  · intro handle' sub' h2
    simp only [subscribe, hCmd] at h2
    cases hsub : env'.subscribeCmd handle with
    | error e => simp [hsub, Except.map] at h2
    | ok v =>
      simp only [hsub, Except.map, Except.ok.injEq, Prod.mk.injEq] at h2
      exact h2.1.symm

/-- Witness for C9: a concrete first call that starts the monitor, whose
successor call reuses handle 0 and starts nothing new. -/
theorem subscribe_idempotent_witness :
    let env : SubscribeEnv :=
      ⟨fun n => .ok n, fun cmd => .ok (cmd + 100)⟩
    (⟨some 0, 1⟩ : MonitorState).txMonitorCmd = some 0 ∧
    (subscribe env ⟨some 0, 1⟩).1 = ⟨some 0, 1⟩ ∧
    (subscribe env ⟨some 0, 1⟩).1.monitorsStarted =
      (⟨some 0, 1⟩ : MonitorState).monitorsStarted ∧
    ∀ handle' sub', (subscribe env ⟨some 0, 1⟩).2 = .ok (handle', sub') →
      handle' = 0 :=
  subscribe_idempotent ⟨fun n => .ok n, fun cmd => .ok (cmd + 100)⟩
    ⟨fun n => .ok n, fun cmd => .ok (cmd + 100)⟩
    ⟨none, 0⟩ ⟨some 0, 1⟩ 0 100 rfl

/-! ### Protobuf message type URLs

The `TYPE_URL` constants of `ibc_relayer_types` message types, used by
both the Axon message dispatcher and the CKB transaction builder. -/

def createClientTypeUrl : String := "/ibc.core.client.v1.MsgCreateClient"

def updateClientTypeUrl : String := "/ibc.core.client.v1.MsgUpdateClient"

def connOpenInitTypeUrl : String :=
  "/ibc.core.connection.v1.MsgConnectionOpenInit"

def connOpenTryTypeUrl : String :=
  "/ibc.core.connection.v1.MsgConnectionOpenTry"

def connOpenAckTypeUrl : String :=
  "/ibc.core.connection.v1.MsgConnectionOpenAck"

def connOpenConfirmTypeUrl : String :=
  "/ibc.core.connection.v1.MsgConnectionOpenConfirm"

def chanOpenInitTypeUrl : String := "/ibc.core.channel.v1.MsgChannelOpenInit"

def chanOpenTryTypeUrl : String := "/ibc.core.channel.v1.MsgChannelOpenTry"

def chanOpenAckTypeUrl : String := "/ibc.core.channel.v1.MsgChannelOpenAck"

def chanOpenConfirmTypeUrl : String :=
  "/ibc.core.channel.v1.MsgChannelOpenConfirm"

def chanCloseInitTypeUrl : String :=
  "/ibc.core.channel.v1.MsgChannelCloseInit"

def chanCloseConfirmTypeUrl : String :=
  "/ibc.core.channel.v1.MsgChannelCloseConfirm"

def recvPacketTypeUrl : String := "/ibc.core.channel.v1.MsgRecvPacket"

def acknowledgementTypeUrl : String :=
  "/ibc.core.channel.v1.MsgAcknowledgement"

def timeoutTypeUrl : String := "/ibc.core.channel.v1.MsgTimeout"

/-- A generic protocol message (`ibc_proto::google::protobuf::Any`): a
type URL tag plus an opaque payload. -/
structure AnyMsg where
  typeUrl : String
  payload : Nat
  deriving DecidableEq, Repr

/-! ### CKB transaction builder dispatch
(ckb4ibc/message.rs lines 207-276)

The per-message conversion functions (`convert_create_client`,
`convert_conn_open_init_to_tx`, ...) live in the `client`/`conn`/`chan`
submodules, which are external to the reviewed sources; each is
modelled as an opaque fallible function of the message (the `convert!`
macro's `from_any` decode failure is one of its error outcomes).  The
dispatch itself — the `match msg.type_url.as_str()` — is embedded
verbatim; its default arm is `todo!()`, a panic. -/

/-- An unsigned CKB transaction skeleton (`CkbTxInfo`). -/
structure CkbTxInfo where
  unsignedTx : Option Nat
  envelope : Nat
  inputCapacity : Nat
  event : Option Nat
  deriving DecidableEq, Repr

/-- The external per-type conversion functions used by
`convert_msg_to_ckb_tx`, one per supported type URL. -/
structure CkbConvertEnv where
  convertCreateClient : AnyMsg → Except Error CkbTxInfo
  convertUpdateClient : AnyMsg → Except Error CkbTxInfo
  convertConnOpenInit : AnyMsg → Except Error CkbTxInfo
  convertConnOpenTry : AnyMsg → Except Error CkbTxInfo
  convertConnOpenAck : AnyMsg → Except Error CkbTxInfo
  convertConnOpenConfirm : AnyMsg → Except Error CkbTxInfo
  convertChanOpenInit : AnyMsg → Except Error CkbTxInfo
  convertChanOpenTry : AnyMsg → Except Error CkbTxInfo
  convertChanOpenAck : AnyMsg → Except Error CkbTxInfo
  convertChanOpenConfirm : AnyMsg → Except Error CkbTxInfo
  convertChanCloseInit : AnyMsg → Except Error CkbTxInfo
  convertRecvPacket : AnyMsg → Except Error CkbTxInfo
  convertAckPacket : AnyMsg → Except Error CkbTxInfo

/-- Lifting of a fallible external call into the outcome type. -/
def liftExcept {α : Type} : Except Error α → Outcome α
  | .error e => .err e
  | .ok a => .okv a

/-- Embedding of `convert_msg_to_ckb_tx` (ckb4ibc/message.rs lines
207-276).  Exactly the thirteen listed type URLs are dispatched; the
default arm of the source is `todo!()`, which panics. -/
def convertMsgToCkbTx (env : CkbConvertEnv) (msg : AnyMsg) :
    Outcome CkbTxInfo :=
  if msg.typeUrl = createClientTypeUrl then
    liftExcept (env.convertCreateClient msg)
  else if msg.typeUrl = updateClientTypeUrl then
    liftExcept (env.convertUpdateClient msg)
  else if msg.typeUrl = connOpenInitTypeUrl then
    liftExcept (env.convertConnOpenInit msg)
  else if msg.typeUrl = connOpenTryTypeUrl then
    liftExcept (env.convertConnOpenTry msg)
  else if msg.typeUrl = connOpenAckTypeUrl then
    liftExcept (env.convertConnOpenAck msg)
  else if msg.typeUrl = connOpenConfirmTypeUrl then
    liftExcept (env.convertConnOpenConfirm msg)
  else if msg.typeUrl = chanOpenInitTypeUrl then
    liftExcept (env.convertChanOpenInit msg)
  else if msg.typeUrl = chanOpenTryTypeUrl then
    liftExcept (env.convertChanOpenTry msg)
  else if msg.typeUrl = chanOpenAckTypeUrl then
    liftExcept (env.convertChanOpenAck msg)
  else if msg.typeUrl = chanOpenConfirmTypeUrl then
    liftExcept (env.convertChanOpenConfirm msg)
  else if msg.typeUrl = chanCloseInitTypeUrl then
    liftExcept (env.convertChanCloseInit msg)
  else if msg.typeUrl = recvPacketTypeUrl then
    liftExcept (env.convertRecvPacket msg)
  else if msg.typeUrl = acknowledgementTypeUrl then
    liftExcept (env.convertAckPacket msg)
  else
    .panic

/-- C6.  The claim says an unsupported type tag fails with
`UnsupportedMessageType`; the code's default dispatch arm is `todo!()`,
which panics instead of returning any error.  Evaluated at the failing
input `/ibc.core.channel.v1.MsgTimeout` (a real IBC message kind with no
arm in this builder), under every converter environment the call
panics and in particular returns no error value. -/
theorem convert_msg_to_ckb_tx_unsupported_panics (env : CkbConvertEnv)
    (payload : Nat) :
    convertMsgToCkbTx env ⟨timeoutTypeUrl, payload⟩ = .panic ∧
    ∀ e, convertMsgToCkbTx env ⟨timeoutTypeUrl, payload⟩ ≠ .err e := by
  have h : convertMsgToCkbTx env ⟨timeoutTypeUrl, payload⟩ = .panic := by
    rw [convertMsgToCkbTx]
    rfl
  exact ⟨h, fun e he => Outcome.noConfusion (h ▸ he)⟩

/-! ### `send_message` (axon.rs lines 1385-1557)

Phase one dispatches the message's type URL to the matching ledger
contract call and awaits inclusion; a timeout message has no native
contract method, so it is re-packed as a receive-packet message and
submitted through the `recv_packet` contract call.  Phase two scans the
inclusion receipt's logs for the first log decoding to the event variant
expected for the type URL and packages it with the receipt's block
height and transaction hash; no matching log is an error, and a receipt
without a block number is reported as still pending. -/

/-- The decoded `OwnableIBCHandlerEvents` variants. -/
inductive EventKind where
  | createClient
  | updateClient
  | openInitConnection
  | openTryConnection
  | openAckConnection
  | openConfirmConnection
  | openInitChannel
  | openTryChannel
  | openAckChannel
  | openConfirmChannel
  | closeInitChannel
  | closeConfirmChannel
  | sendPacket
  | writeAcknowledgement
  | receivePacket
  | acknowledgePacket
  deriving DecidableEq, Repr

/-- A decoded handler-contract event: its variant plus opaque payload. -/
structure HandlerEvent where
  kind : EventKind
  payload : Nat
  deriving DecidableEq, Repr

/-- A transaction inclusion receipt: raw logs (opaque, decoded through
the environment), the including block number when already included, and
the transaction hash. -/
structure TxReceipt where
  logs : List Nat
  blockNumber : Option Nat
  transactionHash : Bytes
  deriving DecidableEq, Repr

/-- The IBC handler contract methods invoked by `send_message`. -/
inductive LedgerMethod where
  | createClient
  | connectionOpenInit
  | connectionOpenTry
  | connectionOpenAck
  | connectionOpenConfirm
  | channelOpenInit
  | channelOpenTry
  | channelOpenAck
  | channelOpenConfirm
  | channelCloseInit
  | channelCloseConfirm
  | recvPacket
  | acknowledgePacket
  deriving DecidableEq, Repr

/-- The first `match msg.type_url.as_str()` of `send_message` (axon.rs
lines 1388-1456), as the type-URL-to-contract-method table.  A timeout
message maps to the `recv_packet` contract call (the contract has no
timeout method); an unlisted URL — including update-client — has no
method and the source returns a non-support error. -/
def dispatchMethod (url : String) : Option LedgerMethod :=
  if url = createClientTypeUrl then some .createClient
  else if url = connOpenInitTypeUrl then some .connectionOpenInit
  else if url = connOpenTryTypeUrl then some .connectionOpenTry
  else if url = connOpenAckTypeUrl then some .connectionOpenAck
  else if url = connOpenConfirmTypeUrl then some .connectionOpenConfirm
  else if url = chanOpenInitTypeUrl then some .channelOpenInit
  else if url = chanOpenTryTypeUrl then some .channelOpenTry
  else if url = chanOpenAckTypeUrl then some .channelOpenAck
  else if url = chanOpenConfirmTypeUrl then some .channelOpenConfirm
  else if url = chanCloseInitTypeUrl then some .channelCloseInit
  else if url = chanCloseConfirmTypeUrl then some .channelCloseConfirm
  else if url = recvPacketTypeUrl then some .recvPacket
  else if url = acknowledgementTypeUrl then some .acknowledgePacket
  else if url = timeoutTypeUrl then some .recvPacket
  else none

/-- The second `match message.type_url.as_str()` of `send_message`
(axon.rs lines 1474-1529), as the type-URL-to-expected-event table: the
single event variant searched for in the receipt logs.  Update-client is
not in this table (its arm synthesizes an event without scanning, and is
in any case unreachable because phase one has no update-client method);
receive-packet and timeout both expect a receive-packet event. -/
def expectedEventKind (url : String) : Option EventKind :=
  if url = createClientTypeUrl then some .createClient
  else if url = connOpenInitTypeUrl then some .openInitConnection
  else if url = connOpenTryTypeUrl then some .openTryConnection
  else if url = connOpenAckTypeUrl then some .openAckConnection
  else if url = connOpenConfirmTypeUrl then some .openConfirmConnection
  else if url = chanOpenInitTypeUrl then some .openInitChannel
  else if url = chanOpenTryTypeUrl then some .openTryChannel
  else if url = chanOpenAckTypeUrl then some .openAckChannel
  else if url = chanOpenConfirmTypeUrl then some .openConfirmChannel
  else if url = chanCloseInitTypeUrl then some .closeInitChannel
  else if url = chanCloseConfirmTypeUrl then some .closeConfirmChannel
  else if url = recvPacketTypeUrl then some .receivePacket
  else if url = timeoutTypeUrl then some .receivePacket
  else if url = acknowledgementTypeUrl then some .acknowledgePacket
  else none

/-- External collaborators of `send_message`: the typed-message
conversions (`try_into` / `from_any` decodes), the contract submission
(send plus await of inclusion, revert decoding folded into its error
code), the receipt-log decoder, and the update-client decode of the dead
synthesis arm. -/
structure SendMessageEnv where
  convertMsg : String → AnyMsg → Except Error Unit
  decodeTimeout : AnyMsg → Except Error Nat
  submit : LedgerMethod → AnyMsg → Except Nat (Option TxReceipt)
  decodeLog : Nat → Except Nat HandlerEvent
  decodeUpdateClient : AnyMsg → Except Error Nat

/-- Phase one of `send_message`: dispatch and submit, yielding the
optional inclusion receipt.  The timeout arm first decodes the
`MsgTimeout` (its fields are then re-packed as a `MsgRecvPacket`) and
submits through the `recv_packet` method. -/
def ledgerSubmitPhase (env : SendMessageEnv) (msg : AnyMsg) :
    Except Error (Option TxReceipt) :=
  match dispatchMethod msg.typeUrl with
  | none =>
    .error (.otherError ("non-support message type url: " ++ msg.typeUrl))
  | some m =>
    if msg.typeUrl = timeoutTypeUrl then
      match env.decodeTimeout msg with
      | .error e => .error e
      | .ok _ =>
        match env.submit .recvPacket msg with
        | .error code => .error (.convertErr code)
        | .ok r => .ok r
    else
      match env.convertMsg msg.typeUrl msg with
      | .error e => .error e
      | .ok _ =>
        match env.submit m msg with
        | .error code => .error (.convertErr code)
        | .ok r => .ok r

/-- The `events.find(|event| matches!(event, Ok(<Expected>(_))))` scan:
first receipt log whose decode succeeds with the expected variant; logs
that fail to decode or decode to other variants are skipped. -/
def findMatchingEvent (env : SendMessageEnv) (kind : EventKind)
    (logs : List Nat) : Option HandlerEvent :=
  logs.findSome? fun l =>
    match env.decodeLog l with
    | .ok ev => if ev.kind = kind then some ev else none
    | .error _ => none

/-- Phase two of `send_message`: recover the expected event from the
receipt logs.  The update-client arm synthesizes an update-client event
from the message itself instead of scanning; every other supported URL
scans for its expected variant; an unlisted URL is a non-support
error. -/
def findEventForMsg (env : SendMessageEnv) (msg : AnyMsg)
    (logs : List Nat) : Except Error (Option HandlerEvent) :=
  if msg.typeUrl = updateClientTypeUrl then
    match env.decodeUpdateClient msg with
    | .error e => .error e
    | .ok clientPayload => .ok (some ⟨.updateClient, clientPayload⟩)
  else
    match expectedEventKind msg.typeUrl with
    | some kind => .ok (findMatchingEvent env kind logs)
    | none =>
      .error (.sendTx ("non-support message type url: " ++ msg.typeUrl))

/-- A recovered canonical event with the height and transaction hash of
the receipt it came from (`IbcEventWithHeight`). -/
structure IbcEventWithHeight where
  event : HandlerEvent
  height : Height
  txHash : Bytes
  deriving DecidableEq, Repr

/-- Embedding of `AxonChain::send_message` (axon.rs lines 1385-1557). -/
def sendMessage (env : SendMessageEnv) (msg : AnyMsg) :
    Except Error IbcEventWithHeight :=
  match ledgerSubmitPhase env msg with
  | .error e => .error e
  | .ok none => .error (.sendTx "fail to send tx")
  | .ok (some receipt) =>
    match findEventForMsg env msg receipt.logs with
    | .error e => .error e
    | .ok none =>
      .error (.sendTx "not find right event from Axon transaction receipt.")
    | .ok (some ev) =>
      match receipt.blockNumber with
      | none => .error (.sendTx "transaction is still pending")
      | some blockHeight =>
        .ok ⟨ev, Height.fromNoncosmos blockHeight, receipt.transactionHash⟩

theorem expectedEventKind_update_none :
    expectedEventKind updateClientTypeUrl = none := rfl

theorem expectedEventKind_ne_update {url : String} {k : EventKind} :
    expectedEventKind url = some k → url ≠ updateClientTypeUrl := by
  intro h hu
  rw [hu, expectedEventKind_update_none] at h
  exact Option.noConfusion h

/-- C7.  Each submitted message's type tag fixes one contract method and
one expected event variant; a timeout message is submitted through the
receive-packet contract call and expects a receive-packet event; for
every message whose submission yielded an inclusion receipt, if no
receipt log decodes to the expected variant the call fails with the
event-not-found error, and if some log does, the first such decoded
event is returned with the receipt's block height and transaction
hash. -/
theorem send_message_expected_event :
    dispatchMethod timeoutTypeUrl = some .recvPacket ∧
    expectedEventKind timeoutTypeUrl = some .receivePacket ∧
    expectedEventKind recvPacketTypeUrl = some .receivePacket ∧
    ∀ (env : SendMessageEnv) (msg : AnyMsg) (kind : EventKind)
      (receipt : TxReceipt),
      expectedEventKind msg.typeUrl = some kind →
      ledgerSubmitPhase env msg = .ok (some receipt) →
      (findMatchingEvent env kind receipt.logs = none →
        sendMessage env msg =
          .error (.sendTx
            "not find right event from Axon transaction receipt.")) ∧
      (∀ ev blockHeight,
        findMatchingEvent env kind receipt.logs = some ev →
        receipt.blockNumber = some blockHeight →
        sendMessage env msg =
          .ok ⟨ev, Height.fromNoncosmos blockHeight,
            receipt.transactionHash⟩) := by
  refine ⟨rfl, rfl, rfl, ?_⟩
  intro env msg kind receipt hExp hSubmit
  have hne : msg.typeUrl ≠ updateClientTypeUrl :=
    expectedEventKind_ne_update hExp
  constructor
  · intro hNone
    rw [sendMessage, hSubmit]
    simp only [findEventForMsg, hne, ite_false, hExp, hNone]
  · intro ev blockHeight hSome hBn
    rw [sendMessage, hSubmit]
    simp only [findEventForMsg, hne, ite_false, hExp, hSome, hBn]

/-- A concrete environment for the C7 witness: every conversion
succeeds, submission yields a receipt whose logs are `[0, 1]`, log 0
decodes to a send-packet event and log 1 to a receive-packet event, and
the receipt is included in block 33 with transaction hash bytes
`[5, 6]`. -/
def envSendOk : SendMessageEnv where
  convertMsg := fun _ _ => .ok ()
  decodeTimeout := fun _ => .ok 0
  submit := fun _ _ => .ok (some ⟨[0, 1], some 33, [5, 6]⟩)
  decodeLog := fun l =>
    if l = 1 then .ok ⟨.receivePacket, 11⟩ else .ok ⟨.sendPacket, 12⟩
  decodeUpdateClient := fun _ => .ok 0

/-- Witness for C7: a receive-packet message whose receipt contains
exactly one receive-packet log yields that event with the receipt's
block height and transaction hash. -/
theorem send_message_expected_event_witness :
    sendMessage envSendOk ⟨recvPacketTypeUrl, 0⟩ =
      .ok ⟨⟨.receivePacket, 11⟩, Height.fromNoncosmos 33, [5, 6]⟩ :=
  (send_message_expected_event.2.2.2 envSendOk ⟨recvPacketTypeUrl, 0⟩
    .receivePacket ⟨[0, 1], some 33, [5, 6]⟩ rfl rfl).2
    ⟨.receivePacket, 11⟩ 33 rfl rfl

/-! ### Denom-trace parsing (axon.rs lines 1183-1222)

`parse_denom_trace` and `extract_path_and_base_from_full_denom` are pure
string functions; strings are embedded as lists of characters.
`raw_denom.split('/')` always yields at least one part; the Rust `join`
and `parse::<usize>` (optional leading plus sign, nonempty decimal
digits, value bounded by the 64-bit usize maximum) are embedded
directly. -/

/-- Rust `str::split('/')` over the characters of a string: yields one
(possibly empty) part per separator gap, at least one part overall. -/
def splitOnSlash : List Char → List (List Char)
  | [] => [[]]
  | c :: rest =>
    if c = '/' then [] :: splitOnSlash rest
    else
      match splitOnSlash rest with
      | [] => [[c]]
      | p :: ps => (c :: p) :: ps

/-- Rust `[&str]::join("/")`. -/
def joinSlash : List (List Char) → List Char
  | [] => []
  | [p] => p
  | p :: ps => p ++ '/' :: joinSlash ps

/-- Accumulating decimal evaluation of a digit string; fails on the
first non-digit. -/
def digitsToNat : List Char → Nat → Option Nat
  | [], acc => some acc
  | c :: rest, acc =>
    if c.isDigit then digitsToNat rest (acc * 10 + (c.toNat - 48))
    else none

/-- Rust `str::parse::<usize>()` on a 64-bit target: an optional leading
`+`, then a nonempty run of decimal digits whose value does not overflow
the 64-bit usize. -/
def parseUsize (s : List Char) : Option Nat :=
  let digits :=
    match s with
    | '+' :: rest => rest
    | _ => s
  match digits with
  | [] => none
  | _ =>
    match digitsToNat digits 0 with
    | none => none
    | some n => if n ≤ 2 ^ 64 - 1 then some n else none

/-- Matches the literal prefix `channel-` and returns the remainder. -/
def stripChannelDash : List Char → Option (List Char)
  | 'c' :: 'h' :: 'a' :: 'n' :: 'n' :: 'e' :: 'l' :: '-' :: rest =>
    some rest
  | _ => none

/-- The nested `is_valid_channel_id` of
`extract_path_and_base_from_full_denom` (axon.rs lines 1196-1203): the
segment starts with `channel-` and its remainder parses as a usize. -/
def isValidChannelId (c : List Char) : Bool :=
  match stripChannelDash c with
  | none => false
  | some rest => (parseUsize rest).isSome

/-- The pair-consuming loop of `extract_path_and_base_from_full_denom`
(axon.rs lines 1209-1217): stepping two segments at a time, a (port,
valid channel id) pair joins the path while the original input had more
than two segments and at least two segments remain; otherwise all
remaining segments become the base and the loop breaks.  `big` is the
loop-constant `len > 2` test on the original segment count. -/
def extractGo (big : Bool) :
    List (List Char) → List (List Char) × List (List Char)
  | [] => ([], [])
  | [x] => ([], [x])
  | p :: c :: rest =>
    if big && isValidChannelId c then
      (p :: c :: (extractGo big rest).1, (extractGo big rest).2)
    else ([], p :: c :: rest)

/-- Embedding of `extract_path_and_base_from_full_denom` (axon.rs lines
1195-1222): run the pair loop, then `join("/")` each side. -/
def extractPathAndBaseFromFullDenom (parts : List (List Char)) :
    List Char × List Char :=
  (joinSlash (extractGo (decide (2 < parts.length)) parts).1,
   joinSlash (extractGo (decide (2 < parts.length)) parts).2)

/-- A parsed denom trace: prefix path and base denomination. -/
structure DenomTrace where
  path : List Char
  baseDenom : List Char
  deriving DecidableEq, Repr

/-- Embedding of `parse_denom_trace` (axon.rs lines 1183-1193): when the
first split part equals the whole input (no separator present) the path
is empty and the base is the input; otherwise the parts are split by the
extraction.  The source wraps the result in `Ok` unconditionally. -/
def parseDenomTrace (rawDenom : List Char) : DenomTrace :=
  if (splitOnSlash rawDenom).headI = rawDenom then
    { path := [], baseDenom := rawDenom }
  else
    { path := (extractPathAndBaseFromFullDenom (splitOnSlash rawDenom)).1
      baseDenom :=
        (extractPathAndBaseFromFullDenom (splitOnSlash rawDenom)).2 }

/-- Re-joining a (path, base) split with `/`, an empty path contributing
nothing — the convention under which the claim's single-segment case is
itself a round trip. -/
def rejoinDenom (path baseDenom : List Char) : List Char :=
  if path = [] then baseDenom else path ++ '/' :: baseDenom

theorem splitOnSlash_ne_nil : ∀ s : List Char, splitOnSlash s ≠ []
  | [] => by simp [splitOnSlash]
  | c :: rest => by
    rw [splitOnSlash]
    by_cases h : c = '/'
    · simp [h]
    · simp only [h, if_false]
      cases hs : splitOnSlash rest with
      | nil => simp
      | cons p ps => simp

theorem joinSlash_splitOnSlash : ∀ s : List Char,
    joinSlash (splitOnSlash s) = s
  | [] => rfl
  | c :: rest => by
    have ih := joinSlash_splitOnSlash rest
    rw [splitOnSlash]
    by_cases h : c = '/'
    · simp only [h, if_true, ite_true]
      cases hs : splitOnSlash rest with
      | nil => exact absurd hs (splitOnSlash_ne_nil rest)
      | cons p ps =>
        rw [hs] at ih
        simp [joinSlash, ih]
    · simp only [h, if_false, ite_false]
      cases hs : splitOnSlash rest with
      | nil => exact absurd hs (splitOnSlash_ne_nil rest)
      | cons p ps =>
        rw [hs] at ih
        cases ps with
        | nil =>
          simp only [joinSlash] at ih ⊢
          rw [ih]
        | cons q qs =>
          simp only [joinSlash] at ih ⊢
          rw [List.cons_append, ih]

theorem splitOnSlash_of_no_slash : ∀ s : List Char,
    '/' ∉ s → splitOnSlash s = [s]
  | [], _ => rfl
  | c :: rest, h => by
    have hc : ¬(c = '/') := fun hcc => h (hcc ▸ List.mem_cons_self c rest)
    have hr : '/' ∉ rest := fun hm => h (List.mem_cons_of_mem c hm)
    rw [splitOnSlash, if_neg hc, splitOnSlash_of_no_slash rest hr]

theorem extractGo_append (big : Bool) : ∀ parts : List (List Char),
    (extractGo big parts).1 ++ (extractGo big parts).2 = parts
  | [] => rfl
  | [x] => rfl
  | p :: c :: rest => by
    have ih := extractGo_append big rest
    by_cases h : (big && isValidChannelId c) = true
    · simp [extractGo, h, ih]
    · simp [extractGo, h]

theorem extractGo_fst_shape (big : Bool) (parts : List (List Char)) :
    (extractGo big parts).1 = [] ∨
      ∃ p c t, (extractGo big parts).1 = p :: c :: t := by
  match parts with
  | [] => exact Or.inl rfl
  | [x] => exact Or.inl rfl
  | p :: c :: rest =>
    by_cases h : (big && isValidChannelId c) = true
    · exact Or.inr ⟨p, c, (extractGo big rest).1, by simp [extractGo, h]⟩
    · exact Or.inl (by simp [extractGo, h])

theorem joinSlash_append : ∀ ps bs : List (List Char), ps ≠ [] → bs ≠ [] →
    joinSlash (ps ++ bs) = joinSlash ps ++ '/' :: joinSlash bs
  | [], _, h, _ => absurd rfl h
  | [a], bs, _, hbs => by
    cases bs with
    | nil => exact absurd rfl hbs
    | cons x xs => simp [joinSlash]
  | a :: b :: t, bs, _, hbs => by
    have ih := joinSlash_append (b :: t) bs (by simp) hbs
    simp only [List.cons_append, joinSlash, List.append_eq] at ih ⊢
    rw [ih]
    simp [List.append_assoc]

theorem joinSlash_cons_cons_ne_nil (p c : List Char)
    (t : List (List Char)) : joinSlash (p :: c :: t) ≠ [] := by
  simp [joinSlash]

theorem rejoin_extract (parts : List (List Char)) :
    rejoinDenom (extractPathAndBaseFromFullDenom parts).1
        (extractPathAndBaseFromFullDenom parts).2 = joinSlash parts ∨
      ((extractPathAndBaseFromFullDenom parts).2 = [] ∧
        rejoinDenom (extractPathAndBaseFromFullDenom parts).1
          (extractPathAndBaseFromFullDenom parts).2 =
          joinSlash parts ++ ['/']) := by
  have happ := extractGo_append (decide (2 < parts.length)) parts
  rcases extractGo_fst_shape (decide (2 < parts.length)) parts with
    hsh | ⟨p, c, t, hsh⟩
  · left
    rw [extractPathAndBaseFromFullDenom] at *
    rw [hsh] at happ ⊢
    simp only [joinSlash, List.nil_append] at happ ⊢
    rw [rejoinDenom, if_pos rfl, happ]
  · have hpath : joinSlash (extractGo (decide (2 < parts.length)) parts).1
        ≠ [] := by
      rw [hsh]; exact joinSlash_cons_cons_ne_nil p c t
    cases hbs : (extractGo (decide (2 < parts.length)) parts).2 with
    | nil =>
      right
      rw [hbs] at happ
      rw [List.append_nil] at happ
      constructor
      · rw [extractPathAndBaseFromFullDenom, hbs]
        rfl
      · rw [extractPathAndBaseFromFullDenom, hbs]
        rw [rejoinDenom, if_neg hpath, happ]
        rfl
    | cons y ys =>
      left
      rw [extractPathAndBaseFromFullDenom]
      rw [rejoinDenom, if_neg hpath]
      rw [← joinSlash_append _ _ (hsh ▸ List.cons_ne_nil _ _)
        (hbs ▸ List.cons_ne_nil _ _), happ]

/-- Counterexample to C8 as stated: for the multi-segment input
`transfer/channel-0/transfer/channel-1`, every second segment is a valid
`channel-<N>` identifier, so the extraction consumes the whole input
into the path and leaves an empty base; re-joining path and base with
`/` then yields a trailing separator and does not reproduce the
original string. -/
theorem parse_denom_trace_counterexample :
    rejoinDenom
        (parseDenomTrace
          ("transfer/channel-0/transfer/channel-1".toList)).path
        (parseDenomTrace
          ("transfer/channel-0/transfer/channel-1".toList)).baseDenom ≠
      "transfer/channel-0/transfer/channel-1".toList := by decide

/-- C8 amended.  Parsing a full denom splits it along `/` boundaries:
a single-segment input (no `/`) yields an empty path with the whole
input as base; in general, re-joining the resulting path and base with
`/` (an empty path contributing nothing) reproduces the original
string, except when the extraction consumes every segment into the path
(an input with an even number, at least four, of segments alternating
valid `channel-<N>` identifiers), where the base is empty and the
re-join yields the original followed by a trailing `/`. -/
theorem parse_denom_trace_round_trip (rawDenom : List Char) :
    ('/' ∉ rawDenom → parseDenomTrace rawDenom = ⟨[], rawDenom⟩) ∧
    (rejoinDenom (parseDenomTrace rawDenom).path
        (parseDenomTrace rawDenom).baseDenom = rawDenom ∨
      ((parseDenomTrace rawDenom).baseDenom = [] ∧
        rejoinDenom (parseDenomTrace rawDenom).path
          (parseDenomTrace rawDenom).baseDenom = rawDenom ++ ['/'])) := by
  constructor
  · intro hns
    rw [parseDenomTrace, splitOnSlash_of_no_slash rawDenom hns]
    simp [List.headI]
  · by_cases hh : (splitOnSlash rawDenom).headI = rawDenom
    · left
      rw [parseDenomTrace, if_pos hh]
      rfl
    · rw [parseDenomTrace, if_neg hh]
      have := rejoin_extract (splitOnSlash rawDenom)
      rw [joinSlash_splitOnSlash] at this
      exact this

/-- Witness for C8's amended theorem: the single-segment denom `uatom`
parses to an empty path with base `uatom`, and the two-hop denom
`transfer/channel-0/uatom` re-joins to itself. -/
theorem parse_denom_trace_round_trip_witness :
    parseDenomTrace ("uatom".toList) = ⟨[], "uatom".toList⟩ ∧
    rejoinDenom
        (parseDenomTrace ("transfer/channel-0/uatom".toList)).path
        (parseDenomTrace ("transfer/channel-0/uatom".toList)).baseDenom =
      "transfer/channel-0/uatom".toList := by
  constructor
  · exact (parse_denom_trace_round_trip ("uatom".toList)).1 (by decide)
  · cases (parse_denom_trace_round_trip
        ("transfer/channel-0/uatom".toList)).2 with
    | inl h => exact h
    | inr h => exact absurd h.1 (by decide)

end Forcerelay
